import Mathlib

set_option maxHeartbeats 1600000

/-!
Verification of the decision and position-lifecycle engine of the Kalshi BTC
range-trading bot (src/main.py).  Monetary quantities and probabilities are
embedded as rationals; quotes are integers in cents, holding the value after
the code's `m.get(...) or 0` coercion (a missing or zero quote both become 0).
The strike fields hold the value after Python truthiness coercion as well
(0 meaning missing-or-zero, which the scanner filters out).  The GBM range
probability model is embedded over the reals.
-/

namespace KalshiBot

/-- Configuration constant MAX_EXPOSURE_PCT = 0.99 from src/main.py. -/
def MAX_EXPOSURE_PCT : ℚ := 99/100

/-- Configuration constant MIN_EDGE = 0.08 from src/main.py. -/
def MIN_EDGE : ℚ := 8/100

/-- Configuration constant STOP_LOSS_PCT = 0.40 from src/main.py. -/
def STOP_LOSS_PCT : ℚ := 2/5

/-- Configuration constant TIME_MIN_MINS = 5 from src/main.py. -/
def TIME_MIN_MINS : ℚ := 5

/-- Configuration constant TIME_MAX_MINS = 30000 from src/main.py. -/
def TIME_MAX_MINS : ℚ := 30000

/-- The two sides of a binary contract. -/
inductive Side
  | yes
  | no
  deriving DecidableEq

/-- The fields of a stored position that the engine's decision logic reads
(src/utils/database.py's Position also carries timestamps, rationale and
similar bookkeeping fields that no decision depends on).  The lifecycle
status open/closed is a Boolean here; exit_value records the value a close
was booked at. -/
structure Position where
  market_id : String
  side : Side
  entry_price : ℚ
  quantity : ℤ
  status_open : Bool
  exit_value : Option ℚ
  deriving DecidableEq

/-- A market snapshot as read by src/main.py: status/result strings (result
already lower-cased, as the code compares result.lower()), the four quotes
in cents after the code's `or 0` coercion, and the two strikes after
truthiness coercion (0 = missing). -/
structure Market where
  status : String
  result : String
  yes_ask : ℤ
  yes_bid : ℤ
  no_ask : ℤ
  no_bid : ℤ
  floor_s : ℚ
  cap_s : ℚ
  deriving DecidableEq

/-- An entry candidate produced by the scanner: chosen side, execution price
in cents, and the signed edge (src/main.py lines 396-434; the remaining
candidate fields are display-only context). -/
structure Candidate where
  side : Side
  price_cents : ℤ
  edge : ℚ
  deriving DecidableEq

/-- src/main.py line 391: the effective NO-side execution price:
`no_ask if (no_ask is not None and 0 < no_ask < 100) else (100 - yes_bid)`
(after the `or 0` coercion the `is not None` test is always true). -/
def no_ask_price (no_ask yes_bid : ℤ) : ℤ :=
  if 0 < no_ask ∧ no_ask < 100 then no_ask else 100 - yes_bid

/-- src/main.py line 393: `edge_yes = model_prob - (yes_ask / 100.0)`. -/
def edge_yes (model_prob : ℚ) (yes_ask : ℤ) : ℚ :=
  model_prob - (yes_ask : ℚ) / 100

/-- src/main.py line 394: `edge_no = (1 - model_prob) - (no_ask_price / 100.0)`. -/
def edge_no (model_prob : ℚ) (noAskPrice : ℤ) : ℚ :=
  (1 - model_prob) - (noAskPrice : ℚ) / 100

/-- src/main.py line 407: after side selection, discard the candidate when
its execution price is at or beyond the 0/100-cent boundary. -/
def checkPrice (c : Candidate) : Option Candidate :=
  if c.price_cents ≤ 0 ∨ 100 ≤ c.price_cents then none else some c

/-- The scanner's per-contract pipeline, src/main.py lines 365-434: the time
window filter, the liquidity and strike filters, then side selection by the
if/elif on the two edges and the final price-boundary check.  The model
probability (the value of range_probability at this contract's strikes) is
passed in, exactly as the code computes it on line 384 before the edges. -/
def evalContract (model_prob : ℚ) (m : Market) (mins_left : ℚ) : Option Candidate :=
  if ¬ (TIME_MIN_MINS ≤ mins_left ∧ mins_left ≤ TIME_MAX_MINS) then none
  else if m.yes_bid ≤ 0 then none
  else if m.floor_s = 0 ∨ m.cap_s = 0 then none
  else if m.yes_ask ≤ 0 ∨ 100 ≤ m.yes_ask then none
  else if MIN_EDGE ≤ edge_yes model_prob m.yes_ask then
    checkPrice ⟨Side.yes, m.yes_ask, edge_yes model_prob m.yes_ask⟩
  else if MIN_EDGE ≤ edge_no model_prob (no_ask_price m.no_ask m.yes_bid) then
    checkPrice ⟨Side.no, no_ask_price m.no_ask m.yes_bid,
                edge_no model_prob (no_ask_price m.no_ask m.yes_bid)⟩
  else none

/-- The scanner's pre-edge filters (src/main.py lines 365-381), as a
predicate: time window, positive best bid, both strikes present, and a YES
ask strictly inside (0, 100). -/
def passesFilters (m : Market) (mins_left : ℚ) : Prop :=
  TIME_MIN_MINS ≤ mins_left ∧ mins_left ≤ TIME_MAX_MINS ∧
  0 < m.yes_bid ∧ m.floor_s ≠ 0 ∧ m.cap_s ≠ 0 ∧
  0 < m.yes_ask ∧ m.yes_ask < 100

instance (m : Market) (mins_left : ℚ) : Decidable (passesFilters m mins_left) := by
  unfold passesFilters; infer_instance

/-- src/main.py line 315: `exposure = sum(p.entry_price * p.quantity for p in positions)`. -/
def exposure (ps : List Position) : ℚ :=
  (ps.map (fun p => p.entry_price * (p.quantity : ℚ))).sum

/-- src/main.py line 317: `exp_pct = exposure / total if total > 0 else 1.0`
with `total = balance + exposure`. -/
def exp_pct (balance expo : ℚ) : ℚ :=
  if 0 < balance + expo then expo / (balance + expo) else 1

/-- src/main.py line 322: the entry phase is skipped for the cycle exactly
when `exp_pct >= MAX_EXPOSURE_PCT`. -/
def skipEntryPhase (balance : ℚ) (ps : List Position) : Bool :=
  MAX_EXPOSURE_PCT ≤ exp_pct balance (exposure ps)

/-- The outcome of one monitor pass over one position (src/main.py,
monitor_positions): a settlement close, a take-profit close, a stop-loss
close (hard stop or edge-flip stop both end in the same close code path),
or the fall-through status-display line that leaves the position open. -/
inductive ExitAction
  | settledClose (exit_value : ℚ)
  | takeProfit (exit_price : ℚ)
  | stopClose (exit_value : ℚ)
  | statusOnly
  deriving DecidableEq

/-- src/main.py lines 146-151: exit value on settlement, for an
already-lower-cased result string. -/
def settlement_exit (side : Side) (result : String) (entry : ℚ) : ℚ :=
  if result = "yes" then (if side = Side.yes then 1 else 0)
  else if result = "no" then (if side = Side.yes then 0 else 1)
  else entry

/-- src/main.py lines 216-219: side-dependent current value of a position.
For NO: `(100 - yes_ask_now)/100 if yes_ask_now else entry_price`; for YES:
`yes_bid_now/100 if yes_bid_now else entry_price` (Python truthiness,
so the quote is used whenever it is nonzero). -/
def curr_val (side : Side) (yes_ask_now yes_bid_now : ℤ) (entry : ℚ) : ℚ :=
  match side with
  | Side.no => if yes_ask_now ≠ 0 then ((100 - yes_ask_now : ℤ) : ℚ) / 100 else entry
  | Side.yes => if yes_bid_now ≠ 0 then (yes_bid_now : ℚ) / 100 else entry

/-- src/main.py line 221:
`(entry_price - curr_val) / entry_price if entry_price else 0`. -/
def unrealized_loss_pct (entry curr : ℚ) : ℚ :=
  if entry ≠ 0 then (entry - curr) / entry else 0

/-- src/main.py lines 224-239: the model-reversal test.  The optional
argument carries the recomputed model probability when the full context is
available (BTC price and volatility passed in, parseable close time, both
strikes present, positive minutes left); when any of that is missing the
code leaves edge_flipped False. -/
def edge_flipped (side : Side) (model_prob : Option ℚ)
    (yes_ask_now no_ask_now : ℤ) : Bool :=
  match model_prob with
  | none => false
  | some mp =>
    match side with
    | Side.yes => decide (mp < (yes_ask_now : ℚ) / 100)
    | Side.no => decide (1 - (no_ask_now : ℚ) / 100 < mp)

/-- src/main.py lines 241-248 with the threshold as a parameter:
trigger when the unrealized-loss fraction meets the threshold, else when
the edge flipped and the loss fraction exceeds 0.05. -/
def shouldStopWith (t entry curr : ℚ) (flipped : Bool) : Bool :=
  if t ≤ unrealized_loss_pct entry curr then true
  else if flipped = true ∧ 1/20 < unrealized_loss_pct entry curr then true
  else false

/-- src/main.py lines 241-248 at the code's own threshold STOP_LOSS_PCT. -/
def shouldStop (entry curr : ℚ) (flipped : Bool) : Bool :=
  shouldStopWith STOP_LOSS_PCT entry curr flipped

/-- src/main.py lines 167-189, the NO-side take-profit block, returning the
action it commits to, or none when control falls through.  tpResp is the
exchange gateway's reply to the closing order (none = rejection), consulted
only on the path where the code actually places that order. -/
def tpNoAction (live : Bool) (pos : Position) (m : Market)
    (tpResp : Option Unit) : Option ExitAction :=
  if pos.side = Side.no ∧ 0 < m.yes_ask ∧ m.yes_ask ≤ 5 then
    let exit_price : ℚ :=
      if 0 < m.no_bid then (m.no_bid : ℚ) / 100 else ((100 - m.yes_ask : ℤ) : ℚ) / 100
    if live = true ∧ 0 < m.no_bid then
      match tpResp with
      | none => none
      | some _ => some (ExitAction.takeProfit exit_price)
    else if live = false then some (ExitAction.takeProfit exit_price)
    else none
  else none

/-- src/main.py lines 191-213, the YES-side take-profit block. -/
def tpYesAction (live : Bool) (pos : Position) (m : Market)
    (tpResp : Option Unit) : Option ExitAction :=
  if pos.side = Side.yes ∧ 80 ≤ m.yes_bid then
    let exit_price : ℚ := (m.yes_bid : ℚ) / 100
    if live = true then
      match tpResp with
      | none => none
      | some _ => some (ExitAction.takeProfit exit_price)
    else some (ExitAction.takeProfit exit_price)
  else none

/-- src/main.py lines 215-275: valuation, stop-loss decision and the final
close-or-display step.  slResp is the gateway's reply to the stop's closing
order; in live mode the close only happens on a non-null reply and from a
side whose bid is positive, otherwise the code falls to the status line. -/
def stopAction (live : Bool) (pos : Position) (m : Market)
    (model_prob : Option ℚ) (slResp : Option Unit) : ExitAction :=
  let cv := curr_val pos.side m.yes_ask m.yes_bid pos.entry_price
  let flipped := edge_flipped pos.side model_prob m.yes_ask m.no_ask
  if shouldStop pos.entry_price cv flipped = true then
    if live = true then
      let r : Option Unit :=
        if pos.side = Side.no ∧ 0 < m.no_bid then slResp
        else if pos.side = Side.yes ∧ 0 < m.yes_bid then slResp
        else none
      match r with
      | some _ => ExitAction.stopClose cv
      | none => ExitAction.statusOnly
    else ExitAction.stopClose cv
  else ExitAction.statusOnly

/-- One monitor pass over one open position, src/main.py lines 138-275:
settlement first (status in settled/closed/finalized with a nonempty
result), then the NO and YES take-profit blocks, then stop-loss, then the
status-only fall-through. -/
def monitorStep (live : Bool) (pos : Position) (m : Market)
    (model_prob : Option ℚ) (tpResp slResp : Option Unit) : ExitAction :=
  if (m.status = "settled" ∨ m.status = "closed" ∨ m.status = "finalized") ∧
      m.result ≠ "" then
    ExitAction.settledClose (settlement_exit pos.side m.result pos.entry_price)
  else
    match tpNoAction live pos m tpResp with
    | some a => a
    | none =>
      match tpYesAction live pos m tpResp with
      | some a => a
      | none => stopAction live pos m model_prob slResp

/-- Modelled from the spec: realized P&L of a close,
(exit_value − entry_price) × quantity (spec §3; the Position Store module
src/utils/database.py is not among the sources). -/
def realizedPnl (p : Position) (exit_value : ℚ) : ℚ :=
  (exit_value - p.entry_price) * (p.quantity : ℚ)

/-- Modelled from the spec: the live-mode reconciliation sweep of
src/main.py lines 305-311 combined with the Position Store's close
operation (src/utils/database.py is not among the sources; per spec §3 a
close only sets status to closed and records the exit value).  Every
locally-open position whose venue-held quantity is zero is closed at its
own entry price; under the at-most-one-open-position-per-contract
invariant this per-element map is the loop's effect on the store. -/
def reconcile (live_qty : String → ℤ) (s : List Position) : List Position :=
  s.map fun p =>
    if p.status_open = true ∧ live_qty p.market_id = 0 then
      { p with status_open := false, exit_value := some p.entry_price }
    else p

/-- src/main.py lines 66-68: the standard normal CDF.  The code computes it
as 0.5*(1 + erf(x/sqrt 2)), which equals the integral of the standard
normal density over (-inf, x]; the embedding uses that integral form. -/
noncomputable def normal_cdf (x : ℝ) : ℝ :=
  (∫ t in Set.Iic x, Real.exp (-(t ^ 2 / 2))) / Real.sqrt (2 * Real.pi)

/-- src/main.py lines 71-84: the GBM terminal-distribution probability that
the underlying lands in [floor_s, cap_s], with the two degenerate guards
(no time left; sigma_t below 1e-9) checked before the general formula, and
the general formula clamped to [0, 1]. -/
noncomputable def range_probability (btc floor_s cap_s vol_per_min mins : ℝ) : ℝ :=
  if mins ≤ 0 then (if floor_s ≤ btc ∧ btc ≤ cap_s then 1 else 0)
  else if vol_per_min * Real.sqrt mins < 1e-9 then
    (if floor_s ≤ btc ∧ btc ≤ cap_s then 1 else 0)
  else
    max 0 (min 1
      (normal_cdf (Real.log (cap_s / btc) / (vol_per_min * Real.sqrt mins)) -
       normal_cdf (Real.log (floor_s / btc) / (vol_per_min * Real.sqrt mins))))

lemma gaussian_integrable :
    MeasureTheory.Integrable (fun t : ℝ => Real.exp (-(t ^ 2 / 2))) := by
  have h := integrable_exp_neg_mul_sq (b := (1/2 : ℝ)) (by norm_num)
  have he : (fun t : ℝ => Real.exp (-(t ^ 2 / 2))) =
      fun t : ℝ => Real.exp (-(1/2 : ℝ) * t ^ 2) := by
    funext t
    congr 1
    ring
  rw [he]
  exact h

lemma normal_cdf_mono {a b : ℝ} (hab : a ≤ b) : normal_cdf a ≤ normal_cdf b := by
  unfold normal_cdf
  have hs : (0 : ℝ) < Real.sqrt (2 * Real.pi) :=
    Real.sqrt_pos.mpr (by positivity)
  have hmono : (∫ t in Set.Iic a, Real.exp (-(t ^ 2 / 2))) ≤
      ∫ t in Set.Iic b, Real.exp (-(t ^ 2 / 2)) := by
    apply MeasureTheory.setIntegral_mono_set gaussian_integrable.integrableOn
    · filter_upwards with t using (Real.exp_pos _).le
    · exact (Set.Iic_subset_Iic.mpr hab).eventuallyLE
  exact div_le_div_of_nonneg_right hmono hs.le

/-- Claim C2 (confirmed): for every open NO-side position whose contract
quotes a positive YES ask q in cents, the monitor values the position at
current value 1 - q/100, never q/100; with q = 20 the value is 0.80. -/
theorem no_side_valuation (q yes_bid : ℤ) (entry : ℚ) (hq : 0 < q) :
    curr_val Side.no q yes_bid entry = 1 - (q : ℚ) / 100 ∧
    curr_val Side.no 20 yes_bid entry = 4/5 ∧
    curr_val Side.no 20 yes_bid entry ≠ 1/5 := by
  refine ⟨?_, ?_, ?_⟩
  · simp only [curr_val]
    rw [if_pos hq.ne']
    push_cast
    ring
  · norm_num [curr_val]
  · norm_num [curr_val]

/-- Witness for no_side_valuation at q = 20. -/
theorem no_side_valuation_witness :
    curr_val Side.no 20 0 (1/2) = 1 - (20 : ℚ) / 100 ∧
    curr_val Side.no 20 0 (1/2) = 4/5 ∧
    curr_val Side.no 20 0 (1/2) ≠ 1/5 :=
  no_side_valuation 20 0 (1/2) (by decide)

/-- Claim C5 (confirmed): exposure is the sum of entry_price x quantity over
open positions, total = balance + exposure, exposure fraction =
exposure/total, the entry phase is skipped exactly when the fraction meets
the 0.99 cap; balance 10 with exposure 90 gives fraction 0.90 and entries
proceed, while fraction 0.99 skips. -/
theorem exposure_circuit_breaker (balance : ℚ) (ps : List Position)
    (h : 0 < balance + exposure ps) :
    exp_pct balance (exposure ps) = exposure ps / (balance + exposure ps) ∧
    (skipEntryPhase balance ps = true ↔
      MAX_EXPOSURE_PCT ≤ exposure ps / (balance + exposure ps)) ∧
    exposure [⟨"A", Side.yes, 9/20, 200, true, none⟩] = 90 ∧
    exp_pct 10 90 = 9/10 ∧
    skipEntryPhase 10 [⟨"A", Side.yes, 9/20, 200, true, none⟩] = false ∧
    skipEntryPhase 1 [⟨"B", Side.yes, 99/100, 100, true, none⟩] = true := by
  refine ⟨if_pos h, ?_, by norm_num [exposure], by norm_num [exp_pct],
    by norm_num [skipEntryPhase, exp_pct, exposure, MAX_EXPOSURE_PCT],
    by norm_num [skipEntryPhase, exp_pct, exposure, MAX_EXPOSURE_PCT]⟩
  simp only [skipEntryPhase, exp_pct, if_pos h]
  exact decide_eq_true_iff

/-- Witness for exposure_circuit_breaker at balance 10, exposure 90. -/
theorem exposure_circuit_breaker_witness :
    exp_pct 10 90 = 9/10 :=
  (exposure_circuit_breaker 10 [⟨"A", Side.yes, 9/20, 200, true, none⟩]
    (by norm_num [exposure])).2.2.2.1

/-- Claim C10 (confirmed): whenever balance + exposure is non-positive the
exposure fraction is defined as 1.0 rather than dividing by the
non-positive total, and 1.0 meets the 0.99 cap, so the entry phase is
skipped: it never runs with non-positive total capital. -/
theorem nonpositive_total_trips_breaker (balance : ℚ) (ps : List Position)
    (h : balance + exposure ps ≤ 0) :
    exp_pct balance (exposure ps) = 1 ∧ skipEntryPhase balance ps = true := by
  have h1 : exp_pct balance (exposure ps) = 1 := by
    rw [exp_pct, if_neg (not_lt.mpr h)]
  refine ⟨h1, ?_⟩
  simp only [skipEntryPhase, h1]
  norm_num [MAX_EXPOSURE_PCT]

/-- Witness for nonpositive_total_trips_breaker at balance -5 and no
positions. -/
theorem nonpositive_total_trips_breaker_witness :
    exp_pct (-5) (exposure []) = 1 ∧ skipEntryPhase (-5) [] = true :=
  nonpositive_total_trips_breaker (-5) [] (by norm_num [exposure])

/-- Claim C4 (confirmed): the scanner computes the YES edge as
model_prob - yes_ask/100 and the NO edge as (1 - model_prob) - no_ask/100
against each side's own execution (ask) price, never the bid/ask midpoint,
where the NO ask defaults to 100 - yes_bid when the venue does not quote
the NO side; with yes bid 47, yes ask 50 and model probability 0.60 the
YES edge is 0.10, not 0.115. -/
theorem scanner_edges_use_ask (model_prob : ℚ) (m : Market) (mins_left : ℚ)
    (c : Candidate) (h : evalContract model_prob m mins_left = some c) :
    (c.side = Side.yes → c.edge = model_prob - (m.yes_ask : ℚ) / 100 ∧
      c.price_cents = m.yes_ask) ∧
    (c.side = Side.no →
      c.edge = (1 - model_prob) - ((no_ask_price m.no_ask m.yes_bid : ℤ) : ℚ) / 100 ∧
      c.price_cents = no_ask_price m.no_ask m.yes_bid) ∧
    (m.no_ask = 0 → no_ask_price m.no_ask m.yes_bid = 100 - m.yes_bid) ∧
    edge_yes (3/5) 50 = 1/10 ∧
    edge_yes (3/5) 50 ≠ (3/5 : ℚ) - (47 + 50) / 200 := by
  have hc : (c.side = Side.yes ∧ c.price_cents = m.yes_ask ∧
        c.edge = edge_yes model_prob m.yes_ask) ∨
      (c.side = Side.no ∧ c.price_cents = no_ask_price m.no_ask m.yes_bid ∧
        c.edge = edge_no model_prob (no_ask_price m.no_ask m.yes_bid)) := by
    unfold evalContract checkPrice at h
    split_ifs at h
    · obtain rfl := Option.some.inj h
      exact Or.inl ⟨rfl, rfl, rfl⟩
    · obtain rfl := Option.some.inj h
      exact Or.inr ⟨rfl, rfl, rfl⟩
  have hdef : m.no_ask = 0 → no_ask_price m.no_ask m.yes_bid = 100 - m.yes_bid := by
    intro h0
    unfold no_ask_price
    rw [if_neg (by simp [h0])]
  refine ⟨?_, ?_, hdef, by norm_num [edge_yes], by norm_num [edge_yes]⟩
  · intro hside
    rcases hc with ⟨_, hp, he⟩ | ⟨hs, _, _⟩
    · exact ⟨by rw [he]; rfl, hp⟩
    · rw [hside] at hs
      exact absurd hs (by simp)
  · intro hside
    rcases hc with ⟨hs, _, _⟩ | ⟨_, hp, he⟩
    · rw [hside] at hs
      exact absurd hs (by simp)
    · exact ⟨by rw [he]; rfl, hp⟩

/-- Witness for scanner_edges_use_ask on a contract with yes bid 47 and
yes ask 50 at model probability 0.60. -/
theorem scanner_edges_use_ask_witness : edge_yes (3/5) 50 = 1/10 :=
  (scanner_edges_use_ask (3/5) ⟨"active", "", 50, 47, 0, 0, 1, 2⟩ 60
    ⟨Side.yes, 50, 1/10⟩
    (by
      simp only [evalContract, checkPrice, edge_yes, edge_no, no_ask_price,
        MIN_EDGE, TIME_MIN_MINS, TIME_MAX_MINS]
      norm_num)).2.2.2.1

/-- Claim C1 counterexample: a contract that passes every filter, on which
both sides' edges meet the minimum-edge threshold and the NO edge is
strictly larger, yet the scanner selects YES (the if/elif checks YES
first). -/
theorem yes_first_counterexample :
    MIN_EDGE ≤ edge_yes (3/10) 10 ∧
    MIN_EDGE ≤ edge_no (3/10) (no_ask_price 10 5) ∧
    edge_yes (3/10) 10 < edge_no (3/10) (no_ask_price 10 5) ∧
    passesFilters ⟨"active", "", 10, 5, 10, 0, 1, 2⟩ 60 ∧
    evalContract (3/10) ⟨"active", "", 10, 5, 10, 0, 1, 2⟩ 60 =
      some ⟨Side.yes, 10, 1/5⟩ := by
  refine ⟨by norm_num [MIN_EDGE, edge_yes],
    by norm_num [MIN_EDGE, edge_no, no_ask_price],
    by norm_num [edge_yes, edge_no, no_ask_price],
    by norm_num [passesFilters, TIME_MIN_MINS, TIME_MAX_MINS], ?_⟩
  simp only [evalContract, checkPrice, edge_yes, edge_no, no_ask_price,
    MIN_EDGE, TIME_MIN_MINS, TIME_MAX_MINS]
  norm_num

/-- Claim C1 amended (corrected): for every contract surviving the filters
the selection is YES-first, not larger-edge-first: the scanner selects YES
whenever the YES edge meets the threshold (even when the NO edge is
larger), otherwise selects NO when the NO edge meets the threshold and the
NO execution price lies strictly inside (0, 100) cents, and discards the
contract when neither side's edge meets the threshold. -/
theorem yes_first_side_selection (model_prob : ℚ) (m : Market) (mins_left : ℚ)
    (hf : passesFilters m mins_left) :
    (MIN_EDGE ≤ edge_yes model_prob m.yes_ask →
      evalContract model_prob m mins_left =
        some ⟨Side.yes, m.yes_ask, edge_yes model_prob m.yes_ask⟩) ∧
    (edge_yes model_prob m.yes_ask < MIN_EDGE →
      MIN_EDGE ≤ edge_no model_prob (no_ask_price m.no_ask m.yes_bid) →
      0 < no_ask_price m.no_ask m.yes_bid →
      no_ask_price m.no_ask m.yes_bid < 100 →
      evalContract model_prob m mins_left =
        some ⟨Side.no, no_ask_price m.no_ask m.yes_bid,
              edge_no model_prob (no_ask_price m.no_ask m.yes_bid)⟩) ∧
    (edge_yes model_prob m.yes_ask < MIN_EDGE →
      edge_no model_prob (no_ask_price m.no_ask m.yes_bid) < MIN_EDGE →
      evalContract model_prob m mins_left = none) := by
  obtain ⟨h1, h2, h3, h4, h5, h6, h7⟩ := hf
  have hfilters : ∀ r : Option Candidate,
      (evalContract model_prob m mins_left = r) =
      ((if MIN_EDGE ≤ edge_yes model_prob m.yes_ask then
          checkPrice ⟨Side.yes, m.yes_ask, edge_yes model_prob m.yes_ask⟩
        else if MIN_EDGE ≤ edge_no model_prob (no_ask_price m.no_ask m.yes_bid) then
          checkPrice ⟨Side.no, no_ask_price m.no_ask m.yes_bid,
                      edge_no model_prob (no_ask_price m.no_ask m.yes_bid)⟩
        else none) = r) := by
    intro r
    unfold evalContract
    rw [if_neg (not_not_intro ⟨h1, h2⟩), if_neg (not_le.mpr h3),
      if_neg (not_or.mpr ⟨h4, h5⟩),
      if_neg (not_or.mpr ⟨not_le.mpr h6, not_le.mpr h7⟩)]
  refine ⟨?_, ?_, ?_⟩
  · intro hy
    rw [hfilters, if_pos hy]
    unfold checkPrice
    exact if_neg (not_or.mpr ⟨not_le.mpr h6, not_le.mpr h7⟩)
  · intro hy hn hp1 hp2
    rw [hfilters, if_neg (not_le.mpr hy), if_pos hn]
    unfold checkPrice
    exact if_neg (not_or.mpr ⟨not_le.mpr hp1, not_le.mpr hp2⟩)
  · intro hy hn
    rw [hfilters, if_neg (not_le.mpr hy), if_neg (not_le.mpr hn)]

/-- Witness for yes_first_side_selection: the YES branch of the selection
at a concrete filtered contract. -/
theorem yes_first_side_selection_witness :
    evalContract (3/5) ⟨"active", "", 50, 47, 0, 0, 1, 2⟩ 60 =
      some ⟨Side.yes, (⟨"active", "", 50, 47, 0, 0, 1, 2⟩ : Market).yes_ask,
            edge_yes (3/5) (⟨"active", "", 50, 47, 0, 0, 1, 2⟩ : Market).yes_ask⟩ :=
  (yes_first_side_selection (3/5) ⟨"active", "", 50, 47, 0, 0, 1, 2⟩ 60
    (by norm_num [passesFilters, TIME_MIN_MINS, TIME_MAX_MINS])).1
    (by norm_num [MIN_EDGE, edge_yes])

/-- Claim C8 (confirmed): with a positive entry price, the hard stop fires
exactly when the unrealized-loss fraction (entry - current)/entry meets
the threshold, equivalently when current value ≤ entry × (1 − threshold),
and above that boundary the stop fires only when the model-reversal flag
holds together with a loss fraction above the 0.05 cutoff.  The code's
fixed threshold is STOP_LOSS_PCT; at the example threshold 0.35 with
entry 0.40 the boundary is current value ≤ 0.26, with no trigger at
0.27. -/
theorem stop_loss_boundary (t entry curr : ℚ) (flipped : Bool) (h : 0 < entry) :
    (shouldStopWith t entry curr false = true ↔ curr ≤ entry * (1 - t)) ∧
    (entry * (1 - t) < curr →
      (shouldStopWith t entry curr flipped = true ↔
        flipped = true ∧ 1/20 < unrealized_loss_pct entry curr)) ∧
    (shouldStop entry curr flipped = shouldStopWith (2/5) entry curr flipped) ∧
    shouldStopWith (7/20) (2/5) (26/100) false = true ∧
    shouldStopWith (7/20) (2/5) (27/100) false = false := by
  have hu : unrealized_loss_pct entry curr = (entry - curr) / entry := by
    unfold unrealized_loss_pct
    rw [if_pos h.ne']
  have hiff : t ≤ (entry - curr) / entry ↔ curr ≤ entry * (1 - t) := by
    rw [le_div_iff₀ h]
    constructor <;> intro h2 <;> nlinarith [h2]
  refine ⟨?_, ?_, rfl, by norm_num [shouldStopWith, unrealized_loss_pct],
    by norm_num [shouldStopWith, unrealized_loss_pct]⟩
  · unfold shouldStopWith
    rw [hu]
    by_cases hb : t ≤ (entry - curr) / entry
    · rw [if_pos hb]
      simp [hiff.mp hb]
    · rw [if_neg hb]
      have hnc : ¬ curr ≤ entry * (1 - t) := fun hc => hb (hiff.mpr hc)
      simp [hnc]
  · intro hover
    have hb : ¬ t ≤ (entry - curr) / entry := fun hc =>
      absurd (hiff.mp hc) (not_le.mpr hover)
    unfold shouldStopWith
    rw [hu, if_neg hb]
    by_cases hf2 : flipped = true ∧ 1/20 < (entry - curr) / entry
    · rw [if_pos hf2]
      exact iff_of_true rfl hf2
    · rw [if_neg hf2]
      simpa using hf2

/-- Witness for stop_loss_boundary: threshold 0.35, entry 0.40, current
value at the 0.26 boundary. -/
theorem stop_loss_boundary_witness :
    shouldStopWith (7/20) (2/5) (26/100) false = true :=
  (stop_loss_boundary (7/20) (2/5) (26/100) false (by norm_num)).2.2.2.1

lemma tpNoAction_rejected (pos : Position) (m : Market) :
    tpNoAction true pos m none = none := by
  unfold tpNoAction
  split_ifs <;> simp_all

lemma tpYesAction_rejected (pos : Position) (m : Market) :
    tpYesAction true pos m none = none := by
  unfold tpYesAction
  split_ifs <;> simp_all

lemma stopAction_cases (live : Bool) (pos : Position) (m : Market)
    (mp : Option ℚ) (slResp : Option Unit) :
    stopAction live pos m mp slResp =
      ExitAction.stopClose (curr_val pos.side m.yes_ask m.yes_bid pos.entry_price) ∨
    stopAction live pos m mp slResp = ExitAction.statusOnly := by
  cases slResp with
  | none =>
    simp only [stopAction]
    split_ifs <;> simp
  | some u =>
    simp only [stopAction]
    split_ifs <;> simp

lemma shouldStop_of_small_loss {entry cv : ℚ} (flipped : Bool)
    (h : unrealized_loss_pct entry cv < 1/20) :
    shouldStop entry cv flipped = false := by
  unfold shouldStop shouldStopWith STOP_LOSS_PCT
  rw [if_neg (by intro hc; linarith), if_neg (by rintro ⟨hf, hu⟩; linarith)]

lemma shouldStop_false_of_no_flip {entry cv : ℚ}
    (h : unrealized_loss_pct entry cv < 2/5) :
    shouldStop entry cv false = false := by
  unfold shouldStop shouldStopWith STOP_LOSS_PCT
  rw [if_neg (by intro hc; linarith),
    if_neg (by rintro ⟨hf, -⟩; exact Bool.false_ne_true hf)]

/-- Claim C3 counterexample: in live mode, a YES position (entry 0.99)
whose take-profit condition holds (yes_bid = 80) has its closing order
rejected, yet the monitor does not fall through to display-only status:
with the model probability available at 0.10 (< yes_ask 0.85), the
model-reversal stop-loss fires in that same cycle and closes the position
at 0.80. -/
theorem tp_rejection_counterexample :
    80 ≤ (⟨"active", "", 85, 80, 0, 0, 1, 2⟩ : Market).yes_bid ∧
    monitorStep true ⟨"T", Side.yes, 99/100, 5, true, none⟩
        ⟨"active", "", 85, 80, 0, 0, 1, 2⟩ (some (1/10)) none (some ()) =
      ExitAction.stopClose (4/5) ∧
    ExitAction.stopClose (4/5) ≠ ExitAction.statusOnly := by
  refine ⟨by norm_num, ?_, by simp⟩
  norm_num [monitorStep, tpNoAction, tpYesAction, stopAction, curr_val,
    edge_flipped, shouldStop, shouldStopWith, unrealized_loss_pct,
    STOP_LOSS_PCT]

/-- Claim C3 amended (corrected): in live mode, when a position's
take-profit condition holds and the closing order is rejected (the gateway
returns null), the position is never marked closed by take-profit that
cycle; for a NO position no other exit rule can fire either, so the
monitor falls through to display-only status; for a YES position the
model-reversal stop-loss may still fire in that same cycle (as the
counterexample shows) but the hard percentage stop still cannot: its
loss-fraction condition is strictly below STOP_LOSS_PCT, so whenever the
model-reversal flag is off the cycle ends in display-only status. -/
theorem tp_rejection_no_divergence (pos : Position) (m : Market)
    (mp : Option ℚ) (slResp : Option Unit)
    (hset : ¬ ((m.status = "settled" ∨ m.status = "closed" ∨
      m.status = "finalized") ∧ m.result ≠ ""))
    (h0 : 0 < pos.entry_price) (h1 : pos.entry_price < 1)
    (htp : (pos.side = Side.no ∧ 0 < m.yes_ask ∧ m.yes_ask ≤ 5 ∧ 0 < m.no_bid) ∨
           (pos.side = Side.yes ∧ 80 ≤ m.yes_bid)) :
    (∀ e, monitorStep true pos m mp none slResp ≠ ExitAction.takeProfit e) ∧
    (pos.side = Side.no →
      monitorStep true pos m mp none slResp = ExitAction.statusOnly) ∧
    (pos.side = Side.yes →
      unrealized_loss_pct pos.entry_price
        (curr_val pos.side m.yes_ask m.yes_bid pos.entry_price) < STOP_LOSS_PCT ∧
      (edge_flipped pos.side mp m.yes_ask m.no_ask = false →
        monitorStep true pos m mp none slResp = ExitAction.statusOnly)) := by
  have hm : monitorStep true pos m mp none slResp =
      stopAction true pos m mp slResp := by
    unfold monitorStep
    rw [if_neg hset, tpNoAction_rejected, tpYesAction_rejected]
  refine ⟨?_, ?_, ?_⟩
  · intro e
    rw [hm]
    rcases stopAction_cases true pos m mp slResp with hc | hc <;> rw [hc] <;> simp
  · intro hside
    rw [hm]
    obtain ⟨-, hya, hya5, -⟩ | ⟨hyes, -⟩ := htp
    swap
    · rw [hside] at hyes
      exact absurd hyes (by simp)
    have hcv : curr_val pos.side m.yes_ask m.yes_bid pos.entry_price =
        ((100 - m.yes_ask : ℤ) : ℚ) / 100 := by
      rw [hside]
      simp only [curr_val]
      rw [if_pos hya.ne']
    have hcast : ((100 - m.yes_ask : ℤ) : ℚ) = 100 - (m.yes_ask : ℚ) := by
      push_cast
      ring
    have hya5q : (m.yes_ask : ℚ) ≤ 5 := by exact_mod_cast hya5
    have hcv95 : (19 : ℚ)/20 ≤ ((100 - m.yes_ask : ℤ) : ℚ) / 100 := by
      rw [hcast]
      linarith
    have hsmall : unrealized_loss_pct pos.entry_price
        (curr_val pos.side m.yes_ask m.yes_bid pos.entry_price) < 1/20 := by
      rw [hcv]
      unfold unrealized_loss_pct
      rw [if_pos h0.ne', div_lt_iff₀ h0]
      linarith
    simp only [stopAction]
    rw [shouldStop_of_small_loss (edge_flipped pos.side mp m.yes_ask m.no_ask) hsmall]
    simp
  · intro hside
    obtain ⟨hno, -⟩ | ⟨-, hyb⟩ := htp
    · rw [hside] at hno
      exact absurd hno (by simp)
    have hyb0 : (0 : ℤ) < m.yes_bid := lt_of_lt_of_le (by norm_num) hyb
    have hcv : curr_val pos.side m.yes_ask m.yes_bid pos.entry_price =
        (m.yes_bid : ℚ) / 100 := by
      rw [hside]
      simp only [curr_val]
      rw [if_pos hyb0.ne']
    have hybq : (80 : ℚ) ≤ (m.yes_bid : ℚ) := by exact_mod_cast hyb
    have hloss : unrealized_loss_pct pos.entry_price
        (curr_val pos.side m.yes_ask m.yes_bid pos.entry_price) < 2/5 := by
      rw [hcv]
      unfold unrealized_loss_pct
      rw [if_pos h0.ne', div_lt_iff₀ h0]
      linarith
    refine ⟨hloss, ?_⟩
    intro hflip
    rw [hm]
    simp only [stopAction]
    rw [hflip, shouldStop_false_of_no_flip hloss]
    simp

/-- Witness for tp_rejection_no_divergence: a NO position with entry 0.50,
yes ask 3 cents (take-profit condition holds), positive NO bid, live mode,
rejected closing order: the cycle ends in display-only status. -/
theorem tp_rejection_no_divergence_witness :
    monitorStep true ⟨"U", Side.no, 1/2, 3, true, none⟩
      ⟨"active", "", 3, 0, 0, 10, 1, 2⟩ none none none = ExitAction.statusOnly :=
  (tp_rejection_no_divergence ⟨"U", Side.no, 1/2, 3, true, none⟩
    ⟨"active", "", 3, 0, 0, 10, 1, 2⟩ none none
    (by simp) (by norm_num) (by norm_num)
    (Or.inl ⟨rfl, by decide, by decide, by decide⟩)).2.1 rfl

/-- Claim C9 (confirmed, store semantics modelled from the spec): in live
mode every locally-open position whose contract shows zero held quantity
on the venue is closed locally at its entry price, for a realized P&L of
exactly zero, and reconciliation is idempotent: a second pass over the
resulting state closes nothing further. -/
theorem reconcile_zero_qty (live_qty : String → ℤ) (s : List Position)
    (p : Position) (hmem : p ∈ s) (hopen : p.status_open = true)
    (hz : live_qty p.market_id = 0) :
    ({ p with status_open := false, exit_value := some p.entry_price } ∈
      reconcile live_qty s) ∧
    realizedPnl p p.entry_price = 0 ∧
    reconcile live_qty (reconcile live_qty s) = reconcile live_qty s := by
  refine ⟨?_, by simp [realizedPnl], ?_⟩
  · unfold reconcile
    refine List.mem_map.mpr ⟨p, hmem, ?_⟩
    show (if p.status_open = true ∧ live_qty p.market_id = 0 then
        { p with status_open := false, exit_value := some p.entry_price }
      else p) = _
    rw [if_pos ⟨hopen, hz⟩]
  · unfold reconcile
    rw [List.map_map]
    apply List.map_congr_left
    intro q _
    by_cases hc : q.status_open = true ∧ live_qty q.market_id = 0
    · simp only [Function.comp_apply, if_pos hc]
      rw [if_neg]
      rintro ⟨hfalse, -⟩
      simp at hfalse
    · simp only [Function.comp_apply, if_neg hc, if_neg hc]

/-- Witness for reconcile_zero_qty on a one-position store where the venue
holds zero of everything. -/
theorem reconcile_zero_qty_witness :
    realizedPnl ⟨"X", Side.yes, 3/10, 2, true, none⟩
      (⟨"X", Side.yes, 3/10, 2, true, none⟩ : Position).entry_price = 0 :=
  (reconcile_zero_qty (fun _ => 0) [⟨"X", Side.yes, 3/10, 2, true, none⟩]
    ⟨"X", Side.yes, 3/10, 2, true, none⟩ (by simp) rfl rfl).2.1

/-- Claim C6 (confirmed): for every input with periods_remaining ≤ 0, or
with sigma_t = vol_per_period × sqrt(periods_remaining) numerically
negligible (below the code's 1e-9 cutoff), the range probability function
returns exactly 1.0 when the current value lies inside [floor, cap] and
exactly 0.0 otherwise, before the general formula is evaluated. -/
theorem range_probability_degenerate (btc floor_s cap_s vol mins : ℝ)
    (h : mins ≤ 0 ∨ vol * Real.sqrt mins < 1e-9) :
    range_probability btc floor_s cap_s vol mins =
      if floor_s ≤ btc ∧ btc ≤ cap_s then 1 else 0 := by
  unfold range_probability
  rcases h with h | h
  · rw [if_pos h]
  · by_cases hm : mins ≤ 0
    · rw [if_pos hm]
    · rw [if_neg hm, if_pos h]

/-- Witness for range_probability_degenerate: no time left, current value
inside the range. -/
theorem range_probability_degenerate_witness :
    range_probability 5 1 10 1 0 = 1 := by
  have h := range_probability_degenerate 5 1 10 1 0 (Or.inl le_rfl)
  rw [h, if_pos (by norm_num)]

/-- Claim C7 (confirmed): over the model's domain (positive current value
and strikes), the range probability is monotone non-decreasing as the
range widens (floor decreases and/or cap increases, other parameters
fixed), and is invariant under simultaneous scaling of current value,
floor and cap by the same positive constant. -/
theorem range_probability_monotone_scale (btc f1 c1 f2 c2 vol mins k : ℝ)
    (hbtc : 0 < btc) (hf2 : 0 < f2) (hff : f2 ≤ f1) (hc1 : 0 < c1)
    (hcc : c1 ≤ c2) (hk : 0 < k) :
    range_probability btc f1 c1 vol mins ≤
      range_probability btc f2 c2 vol mins ∧
    range_probability (k * btc) (k * f1) (k * c1) vol mins =
      range_probability btc f1 c1 vol mins := by
  constructor
  · unfold range_probability
    have hind : (if f1 ≤ btc ∧ btc ≤ c1 then (1:ℝ) else 0) ≤
        (if f2 ≤ btc ∧ btc ≤ c2 then (1:ℝ) else 0) := by
      split_ifs with hA hB hB
      · exact le_rfl
      · exact absurd ⟨le_trans hff hA.1, le_trans hA.2 hcc⟩ hB
      · norm_num
      · exact le_rfl
    by_cases hm : mins ≤ 0
    · rw [if_pos hm, if_pos hm]
      exact hind
    · rw [if_neg hm, if_neg hm]
      by_cases hσ : vol * Real.sqrt mins < 1e-9
      · rw [if_pos hσ, if_pos hσ]
        exact hind
      · rw [if_neg hσ, if_neg hσ]
        have hσ0 : 0 < vol * Real.sqrt mins :=
          lt_of_lt_of_le (by norm_num) (not_lt.mp hσ)
        have hdcap : Real.log (c1 / btc) / (vol * Real.sqrt mins) ≤
            Real.log (c2 / btc) / (vol * Real.sqrt mins) :=
          div_le_div_of_nonneg_right
            (Real.log_le_log (div_pos hc1 hbtc)
              (div_le_div_of_nonneg_right hcc hbtc.le)) hσ0.le
        have hdfloor : Real.log (f2 / btc) / (vol * Real.sqrt mins) ≤
            Real.log (f1 / btc) / (vol * Real.sqrt mins) :=
          div_le_div_of_nonneg_right
            (Real.log_le_log (div_pos hf2 hbtc)
              (div_le_div_of_nonneg_right hff hbtc.le)) hσ0.le
        exact max_le_max le_rfl (min_le_min le_rfl
          (sub_le_sub (normal_cdf_mono hdcap) (normal_cdf_mono hdfloor)))
  · unfold range_probability
    simp only [mul_div_mul_left _ _ (ne_of_gt hk), mul_le_mul_left hk]

/-- Witness for range_probability_monotone_scale at current 2, range
[1, 3], scale factor 2, no time left. -/
theorem range_probability_monotone_scale_witness :
    range_probability 2 1 3 1 0 ≤ range_probability 2 1 3 1 0 ∧
    range_probability (2 * 2) (2 * 1) (2 * 3) 1 0 =
      range_probability 2 1 3 1 0 :=
  range_probability_monotone_scale 2 1 3 1 3 1 0 2 (by norm_num)
    (by norm_num) le_rfl (by norm_num) le_rfl (by norm_num)

end KalshiBot
